import Mathlib

/-!
Verification development for the nmos-rs node: a shallow embedding of the
resource model (`model/src/lib.rs`, `model/src/resource/*`), the mDNS
registry-candidate parsing and ordering (`node/src/mdns.rs`), the
registration/heartbeat driver (`node/src/lib.rs`) and the registration API
(`node/src/api/registration.rs`), together with theorems settling the
specification claims about them.
-/

namespace Nmos

/-- Rust `uuid::Uuid`, embedded as a natural number: the claims only ever
compare identifiers for equality. -/
def Uuid := Nat

instance : DecidableEq Uuid := Nat.decEq

instance : OfNat Uuid n := ⟨(n : Nat)⟩

/-- Modelled from the spec: `ResourceCore` lives in the missing
`model/src/resource/mod.rs`; per §3 every entity has an identifier, a human
label, a description, a version stamp and string-keyed tag lists. The
version stamp is a pair of seconds/nanoseconds counters (`tai.rs` is also
missing from the sources). -/
structure ResourceCore where
  id : Uuid
  label : String
  description : String
  version : Nat × Nat
  tags : List (String × List String)
deriving DecidableEq

/-- Modelled from the spec: media kind of a Source/Flow/Receiver (§3:
"media kind (video/audio/data)"); defined in the missing
`model/src/resource/mod.rs`. -/
inductive Format
  | video
  | audio
  | data
deriving DecidableEq

/-- Modelled from the spec: transport kind of a Sender/Receiver (§3);
defined in the missing `model/src/resource/mod.rs`. -/
inductive Transport
  | rtp
  | rtpUnicast
  | rtpMulticast
deriving DecidableEq

/-- `DeviceType` from `model/src/resource/device.rs`. -/
inductive DeviceType
  | generic
  | pipeline
deriving DecidableEq

/-- `NodeService` from `model/src/resource/node.rs`. -/
structure NodeService where
  href : String
  type_ : String
deriving DecidableEq

/-- `GrainRate` from `model/src/resource/capabilities.rs`. -/
structure GrainRate where
  denominator : Option Int
  numerator : Int
deriving DecidableEq

/-- `Node` from `model/src/resource/node.rs`. -/
structure NmosNode where
  core : ResourceCore
  href : String
  hostname : Option String
  services : List NodeService
deriving DecidableEq

/-- `Device` from `model/src/resource/device.rs`. -/
structure Device where
  core : ResourceCore
  type_ : DeviceType
  node_id : Uuid
  senders : List Uuid
  receivers : List Uuid
deriving DecidableEq

/-- `Source` from `model/src/resource/source.rs`. -/
structure Source where
  core : ResourceCore
  format : Format
  device_id : Uuid
  parents : List Uuid
deriving DecidableEq

/-- `Flow` from `model/src/resource/flow.rs`. -/
structure Flow where
  core : ResourceCore
  format : Format
  source_id : Uuid
  device_id : Uuid
  parents : List Uuid
  frame_height : Int
  frame_width : Int
  media_type : String
  colorspace : String
  grain_rate : Option GrainRate
  sample_rate : Option GrainRate
deriving DecidableEq

/-- `Sender` from `model/src/resource/sender.rs`. -/
structure Sender where
  core : ResourceCore
  flow_id : Uuid
  transport : Transport
  device_id : Uuid
  manifest_href : String
deriving DecidableEq

/-- `Receiver` from `model/src/resource/receiver.rs`. -/
structure Receiver where
  core : ResourceCore
  format : Format
  device_id : Uuid
  transport : Transport
  subscription : Option Uuid
deriving DecidableEq

/-- Modelled from the spec: `ResourceBundle` lives in the missing
`model/src/resource/mod.rs`; it is the loose collection of resources
consumed by `Model::from_resources` (one vector per entity kind, as read
off the field accesses in `model/src/lib.rs`). -/
structure ResourceBundle where
  nodes : List NmosNode
  devices : List Device
  sources : List Source
  flows : List Flow
  senders : List Sender
  receivers : List Receiver
deriving DecidableEq

/-! ### Hash maps

`std::collections::HashMap<Uuid, T>` is embedded as an association list
with key-replacing insertion; iteration order is arbitrary in Rust, which
the theorems respect by never relying on a particular list order. -/

/-- `HashMap::insert`: binds `k` to `v`, replacing any previous binding. -/
def insertKV (k : Uuid) (v : α) (m : List (Uuid × α)) : List (Uuid × α) :=
  (k, v) :: m.filter (fun p => !(decide (p.1 = k)))

/-- `HashMap::contains_key`. -/
def containsKey (k : Uuid) (m : List (Uuid × α)) : Bool :=
  m.any (fun p => decide (p.1 = k))

/-- `HashMap::get`. -/
def lookupKV (k : Uuid) (m : List (Uuid × α)) : Option α :=
  (m.find? (fun p => decide (p.1 = k))).map (·.2)

/-- Folding a resource vector into a hash map keyed by `core.id`, as each
`fold` in `Model::from_resources` does. -/
def foldToMap (key : α → Uuid) (l : List α) : List (Uuid × α) :=
  l.foldl (fun map x => insertKV (key x) x map) []

/-- `Model` from `model/src/lib.rs`: the six per-kind collections. The
`RwLock` wrappers only serialize concurrent access; the sequential
semantics embedded here is the lock-free content. -/
structure Model where
  nodes : List (Uuid × NmosNode)
  devices : List (Uuid × Device)
  sources : List (Uuid × Source)
  flows : List (Uuid × Flow)
  senders : List (Uuid × Sender)
  receivers : List (Uuid × Receiver)
deriving DecidableEq

/-- `Model::new` / `Model::default`. -/
def Model.new : Model :=
  { nodes := [], devices := [], sources := [], flows := [], senders := [], receivers := [] }

/-- `Model::from_resources` (`model/src/lib.rs` lines 29-91): every vector
of the bundle is folded into its map keyed by `core.id`, with no
referential checking of any kind. -/
def Model.from_resources (b : ResourceBundle) : Model :=
  { nodes := foldToMap (fun n => n.core.id) b.nodes
    devices := foldToMap (fun d => d.core.id) b.devices
    sources := foldToMap (fun s => s.core.id) b.sources
    flows := foldToMap (fun f => f.core.id) b.flows
    senders := foldToMap (fun s => s.core.id) b.senders
    receivers := foldToMap (fun r => r.core.id) b.receivers }

/-- `Model::insert_node`: unconditional insert, always `Some(())`. -/
def Model.insert_node (m : Model) (node : NmosNode) : Option Model :=
  some { m with nodes := insertKV node.core.id node m.nodes }

/-- `Model::insert_device`: requires `device.node_id` to be a key of
`nodes`, otherwise `None` and the model is untouched. -/
def Model.insert_device (m : Model) (device : Device) : Option Model :=
  if !containsKey device.node_id m.nodes then none
  else some { m with devices := insertKV device.core.id device m.devices }

/-- `Model::insert_receiver`: requires `receiver.device_id` to be a key of
`devices`. -/
def Model.insert_receiver (m : Model) (receiver : Receiver) : Option Model :=
  if !containsKey receiver.device_id m.devices then none
  else some { m with receivers := insertKV receiver.core.id receiver m.receivers }

/-- `Model::insert_sender`: requires `sender.device_id` in `devices` and
`sender.flow_id` in `flows`. -/
def Model.insert_sender (m : Model) (sender : Sender) : Option Model :=
  if !containsKey sender.device_id m.devices || !containsKey sender.flow_id m.flows then none
  else some { m with senders := insertKV sender.core.id sender m.senders }

/-- `Model::insert_flow`: requires `flow.device_id` in `devices` and
`flow.source_id` in `sources`. -/
def Model.insert_flow (m : Model) (flow : Flow) : Option Model :=
  if !containsKey flow.device_id m.devices || !containsKey flow.source_id m.sources then none
  else some { m with flows := insertKV flow.core.id flow m.flows }

/-- One insert operation on the model; the `Model` API exposes exactly
these five inserts (there is no `insert_source`). -/
inductive InsertOp
  | node (n : NmosNode)
  | device (d : Device)
  | receiver (r : Receiver)
  | sender (s : Sender)
  | flow (f : Flow)
deriving DecidableEq

/-- Applying one insert: a rejected insert (`None`) leaves the model as it
was, which is exactly what the Rust caller observes since `&self` was
never written to. -/
def applyInsert (m : Model) : InsertOp → Model
  | .node n => (m.insert_node n).getD m
  | .device d => (m.insert_device d).getD m
  | .receiver r => (m.insert_receiver r).getD m
  | .sender s => (m.insert_sender s).getD m
  | .flow f => (m.insert_flow f).getD m

/-- Running a sequence of insert operations. -/
def runInserts (m : Model) : List InsertOp → Model
  | [] => m
  | op :: rest => runInserts (applyInsert m op) rest

/-- The referential-integrity invariant of §3: every Device references an
existing Node, every Receiver an existing Device, every Sender an existing
Device and Flow, every Flow an existing Device and Source. -/
def Model.refOk (m : Model) : Bool :=
  m.devices.all (fun p => containsKey p.2.node_id m.nodes) &&
  m.receivers.all (fun p => containsKey p.2.device_id m.devices) &&
  m.senders.all (fun p => containsKey p.2.device_id m.devices && containsKey p.2.flow_id m.flows) &&
  m.flows.all (fun p => containsKey p.2.device_id m.devices && containsKey p.2.source_id m.sources)

/-! ### API versions and field parsers -/

/-- Modelled from the spec: `APIVersion` lives in the missing
`model/src/version.rs`; a protocol revision with major/minor components,
displayed as in `v1.0` / `v1.3` (§6, glossary). -/
structure APIVersion where
  major : Nat
  minor : Nat
deriving DecidableEq

/-- Display form of an API version (`v<major>.<minor>`), as interpolated
into URLs by `node/src/lib.rs`. -/
def APIVersion.toStr (v : APIVersion) : String :=
  "v" ++ Nat.repr v.major ++ "." ++ Nat.repr v.minor

/-- `str::split` on a one-character separator, over the character list
(used instead of `String.splitOn` so that proofs can evaluate it). -/
def splitChar (sep : Char) : List Char → List (List Char)
  | [] => [[]]
  | c :: rest =>
    let r := splitChar sep rest
    if c = sep then [] :: r
    else
      match r with
      | [] => [[c]]
      | g :: gs => (c :: g) :: gs

/-- The numeric value of a decimal digit. -/
def digitVal (c : Char) : Option Nat :=
  if '0' ≤ c ∧ c ≤ '9' then some (c.toNat - '0'.toNat) else none

/-- Decimal parsing of a non-empty all-digit character list (the behavior
of Rust's unsigned `from_str` on plain digit strings). -/
def parseNatChars (l : List Char) : Option Nat :=
  match l with
  | [] => none
  | _ =>
    l.foldl
      (fun acc c =>
        match acc, digitVal c with
        | some a, some d => some (a * 10 + d)
        | _, _ => none)
      (some 0)

/-- Modelled from the spec: `APIVersion::from_str` (missing
`model/src/version.rs`), parsing a `v<major>.<minor>` version string;
anything else fails. -/
def APIVersion.fromStr (s : String) : Option APIVersion :=
  match s.data with
  | 'v' :: rest =>
    match splitChar '.' rest with
    | [ma, mi] =>
      match parseNatChars ma, parseNatChars mi with
      | some a, some b => some ⟨a, b⟩
      | _, _ => none
    | _ => none
  | _ => none

/-- `is_04::V1_0`. -/
def V1_0 : APIVersion := ⟨1, 0⟩

/-- `is_04::V1_3`, the default configured version in `NodeBuilder::new`. -/
def V1_3 : APIVersion := ⟨1, 3⟩

/-- Rust `bool::from_str`: exactly `true` or `false`. -/
def parseRustBool (s : String) : Option Bool :=
  if s = "true" then some true
  else if s = "false" then some false
  else none

/-- Rust `u8::from_str`: a decimal number that fits in eight bits. -/
def parseRustU8 (s : String) : Option Nat :=
  match parseNatChars s.data with
  | some n => if n < 256 then some n else none
  | none => none

/-- Rust `IpAddr`, restricted to the IPv4 form the embedding needs. -/
structure IpAddr where
  a : Nat
  b : Nat
  c : Nat
  d : Nat
deriving DecidableEq

/-- `IpAddr::from_str` on dotted-quad notation: four octets or failure. -/
def IpAddr.fromStr (s : String) : Option IpAddr :=
  match (splitChar '.' s.data).map (fun l => parseRustU8 ⟨l⟩) with
  | [some a, some b, some c, some d] => some ⟨a, b, c, d⟩
  | _ => none

/-- Dotted-quad rendering used when forming the socket authority. -/
def IpAddr.toStr (ip : IpAddr) : String :=
  Nat.repr ip.a ++ "." ++ Nat.repr ip.b ++ "." ++ Nat.repr ip.c ++ "." ++ Nat.repr ip.d

/-! ### mDNS discovery parsing (`node/src/mdns.rs`) -/

/-- The slice of `zeroconf::ServiceDiscovery` that
`NmosMdnsRegistry::parse` reads: host address, port and the optional TXT
record (a string-keyed map). -/
structure ServiceDiscovery where
  address : String
  port : Nat
  txt : Option (List (String × String))
deriving DecidableEq

/-- `TxtRecord::get`. -/
def txtGet (t : List (String × String)) (key : String) : Option String :=
  (t.find? (fun p => decide (p.1 = key))).map (·.2)

/-- `NmosMdnsRegistry` from `node/src/mdns.rs`. `url` is kept as the URL
string (`Url::parse` on the well-formed base built by `parse` cannot fail,
so it is embedded as the identity). -/
structure NmosMdnsRegistry where
  api_proto : String
  api_ver : List APIVersion
  api_auth : Bool
  pri : Nat
  url : String
deriving DecidableEq

/-- `NmosMdnsRegistry::parse` (`node/src/mdns.rs` lines 32-96): requires a
TXT record with all four keys, a parsable address, boolean `api_auth` and
`u8` `pri`; the `api_ver` list is parsed with `flat_map`, so entries that
fail to parse are skipped individually rather than failing the record. -/
def NmosMdnsRegistry.parse (discovery : ServiceDiscovery) : Option NmosMdnsRegistry :=
  match discovery.txt with
  | none => none
  | some txt =>
    match txtGet txt "api_proto", txtGet txt "api_ver",
        txtGet txt "api_auth", txtGet txt "pri" with
    | some api_proto, some api_ver, some api_auth, some pri =>
      match IpAddr.fromStr discovery.address with
      | none => none
      | some address =>
        let authority := address.toStr ++ ":" ++ Nat.repr discovery.port
        let url := api_proto ++ "://" ++ authority ++ "/x-nmos/registration/"
        let api_ver : List APIVersion :=
          (splitChar ',' api_ver.data).filterMap (fun l => APIVersion.fromStr ⟨l⟩)
        match parseRustBool api_auth with
        | none => none
        | some api_auth =>
          match parseRustU8 pri with
          | none => none
          | some pri => some { api_proto, api_ver, api_auth, pri, url }
    | _, _, _, _ => none

/-! ### Registry candidate queue

`node/src/lib.rs` keeps discovered registries in a
`BinaryHeap<NmosMdnsRegistry>`; `impl Ord for NmosMdnsRegistry`
(`node/src/mdns.rs` lines 99-110) compares `other.pri.cmp(&self.pri)`, so
the heap's maximum is the candidate with the numerically smallest `pri`.
`popBest` is `BinaryHeap::pop` under that ordering: it yields one
greatest element (smallest `pri`; ties broken arbitrarily) and keeps the
rest. -/

def popBest : List NmosMdnsRegistry → Option (NmosMdnsRegistry × List NmosMdnsRegistry)
  | [] => none
  | r :: rs =>
    match popBest rs with
    | none => some (r, [])
    | some (b, rest) => if r.pri ≤ b.pri then some (r, rs) else some (b, r :: rest)

/-- The registry-selection step of one timer tick (`node/src/lib.rs` lines
213-224): pop the best candidate and install it as the current registry —
with no further check of any kind; an empty queue installs nothing. -/
def selectTick (queue : List NmosMdnsRegistry) :
    Option NmosMdnsRegistry × List NmosMdnsRegistry :=
  match popBest queue with
  | none => (none, queue)
  | some (r, rest) => (some r, rest)

/-! ### URLs -/

/-- Everything of `s` up to and including its last `/` (empty if there is
no `/`): the base-path part that `reqwest::Url::join` keeps when joining a
relative reference. -/
def dropLastSeg (s : String) : String :=
  ⟨(s.data.reverse.dropWhile (fun c => !(decide (c = '/')))).reverse⟩

/-- `Url::join` for the relative references this code joins (no `..`, no
absolute paths): the last segment of the base is replaced by `rel`; a base
ending in `/` simply gets `rel` appended. -/
def urlJoin (base rel : String) : String :=
  dropLastSeg base ++ rel

/-- Rendering of a `Uuid` as the identifier string interpolated into
paths. -/
def uuidStr (u : Uuid) : String :=
  Nat.repr u

/-- The heartbeat endpoint built in `Node::start` (`node/src/lib.rs` lines
244-255): `registry.url.join("<api-version>/").join("health/nodes/<node-id>")`. -/
def heartbeatUrl (registryUrl : String) (v : APIVersion) (nodeId : Uuid) : String :=
  urlJoin (urlJoin registryUrl (v.toStr ++ "/")) ("health/nodes/" ++ uuidStr nodeId)

/-- The whole heartbeat-URL block of `Node::start`: the node id is the
first entry of the nodes map, taken with an unchecked `unwrap`, embedded
as `none` (the panic) when the model holds no node. -/
def heartbeatTarget (m : Model) (registryUrl : String) (v : APIVersion) : Option String :=
  match m.nodes with
  | [] => none
  | (nodeId, _) :: _ => some (heartbeatUrl registryUrl v nodeId)

/-! ### Bulk registration pass (`node/src/api/registration.rs`) -/

/-- The six resource kinds, in the `type` tags a registration POST
carries. -/
inductive Kind
  | node
  | device
  | source
  | flow
  | sender
  | receiver
deriving DecidableEq

/-- One resource POST emitted by a registration pass: its kind tag, the
id of the resource serialized into the envelope, and the target URL. -/
structure ResourcePost where
  kind : Kind
  resourceId : Uuid
  url : String
deriving DecidableEq

/-- `RegistrationApi::register_resources` as present in
`node/src/api/registration.rs` (lines 147-182): base is
`registry.url.join("v1.0/")`, the resource endpoint `base.join("resource")`;
the node is the first entry of the nodes map taken with an unchecked
`unwrap` (embedded as `none`, the panic, when there is no node); then one
POST per entity, node first, then every device, source, flow, sender and
receiver. -/
def register_resources (m : Model) (registryUrl : String) : Option (List ResourcePost) :=
  let base := urlJoin registryUrl "v1.0/"
  let resourceUrl := urlJoin base "resource"
  match m.nodes with
  | [] => none
  | (_, node) :: _ =>
    some ([⟨Kind.node, node.core.id, resourceUrl⟩]
      ++ m.devices.map (fun p => ⟨Kind.device, p.2.core.id, resourceUrl⟩)
      ++ m.sources.map (fun p => ⟨Kind.source, p.2.core.id, resourceUrl⟩)
      ++ m.flows.map (fun p => ⟨Kind.flow, p.2.core.id, resourceUrl⟩)
      ++ m.senders.map (fun p => ⟨Kind.sender, p.2.core.id, resourceUrl⟩)
      ++ m.receivers.map (fun p => ⟨Kind.receiver, p.2.core.id, resourceUrl⟩))

/-! ### Heartbeat loop (`node/src/lib.rs` lines 257-291) -/

/-- Outcome of one heartbeat POST, as the loop discriminates it:
2xx success, 404, any other non-success status, or a transport error from
`send()`. -/
inductive HbResp
  | success
  | notFound
  | otherError
  | sendFailed
deriving DecidableEq

/-- Outcome of the in-loop `register_resources` call. -/
inductive RegOutcome
  | regOk
  | regErr
deriving DecidableEq

/-- How a heartbeat session ends: `lost` is the loop's `break` (the driver
falls back to registry selection on the next outer-loop tick);
`heartbeating fa` means the given responses were exhausted with the loop
still alive, `fa` being the current `first_attempt` flag. -/
inductive HbEnd
  | lost
  | heartbeating (first_attempt : Bool)
deriving DecidableEq

/-- The heartbeat loop, driven by the list of successive heartbeat
responses; `rereg` is the outcome the in-loop re-registration would have.
Returns how many times `register_resources` was invoked from inside the
loop, and how the session ended. Mirrors the Rust control flow exactly:
`first_attempt` starts `true`, is consulted only on a 404, and is set to
`false` only after a successful in-loop re-registration — a successful
heartbeat never touches it. -/
def hbLoop (rereg : RegOutcome) : Bool → List HbResp → Nat × HbEnd
  | fa, [] => (0, HbEnd.heartbeating fa)
  | fa, HbResp.success :: rest => hbLoop rereg fa rest
  | fa, HbResp.notFound :: rest =>
    if fa then
      match rereg with
      | RegOutcome.regOk =>
        let r := hbLoop rereg false rest
        (r.1 + 1, r.2)
      | RegOutcome.regErr => (1, HbEnd.lost)
    else (0, HbEnd.lost)
  | _, HbResp.otherError :: _ => (0, HbEnd.lost)
  | _, HbResp.sendFailed :: _ => (0, HbEnd.lost)

/-! ### Current registration protocol, modelled from the spec

The current `RegistrationApi` is absent from the sources: the
`registration.rs` present is an older revision whose three-argument
`register_resources` (hard-coded `v1.0/`, no conflict handling) does not
match its caller `node/src/lib.rs`, which passes the configured API
version and also calls `RegistrationApi::post_resource`,
`register_resource` and `delete_resource` — none of which the present file
defines. The definitions below model that missing code from the spec
(§4.5, §6). -/

/-- Modelled from the spec: how the registry answers a resource POST —
created, "already exists", or any other error. -/
inductive RegResp
  | created
  | alreadyExists
  | errorResp
deriving DecidableEq

/-- One outbound registration-API request. -/
inductive Req
  | post (url : String)
  | delete (url : String)
deriving DecidableEq

/-- Modelled from the spec (§6): `base` = `<registry-url>/<api-version>/`,
and a bulk-registration resource POST goes to `base/resource`. -/
def resourceUrlSpec (registryUrl : String) (v : APIVersion) : String :=
  urlJoin (urlJoin registryUrl (v.toStr ++ "/")) "resource"

/-- Modelled from the spec (§6): a DELETE goes to
`{base}/resource/<kind-path>/<id>`, i.e. the resource endpoint followed by
the entity's `registry_path()`. -/
def deleteUrlSpec (resourceUrl path : String) : String :=
  resourceUrl ++ "/" ++ path

/-- Modelled from the spec (§4.5): registering one entity. POST once; on
"already exists" DELETE the entity at its registry path and retry the POST
exactly once; a second "already exists" (or any other failure) is terminal
for the entity. `r1` is the registry's answer to the first POST, `delOk`
whether the DELETE succeeded, `r2` the answer to the retry POST. Returns
the requests issued and whether the entity ended registered. -/
def registerResourceSpec (resourceUrl path : String) :
    RegResp → Bool → RegResp → List Req × Bool
  | RegResp.created, _, _ => ([Req.post resourceUrl], true)
  | RegResp.errorResp, _, _ => ([Req.post resourceUrl], false)
  | RegResp.alreadyExists, false, _ =>
    ([Req.post resourceUrl, Req.delete (deleteUrlSpec resourceUrl path)], false)
  | RegResp.alreadyExists, true, r2 =>
    ([Req.post resourceUrl, Req.delete (deleteUrlSpec resourceUrl path),
      Req.post resourceUrl],
     decide (r2 = RegResp.created))

/-- Modelled from the spec (§4.5): the bulk pass registers the entities in
order and aborts at the first entity that fails — no request is issued for
any later entity. Each entity comes with its registry path and the
registry's scripted answers. -/
def registerAllSpec (resourceUrl : String) :
    List (String × RegResp × Bool × RegResp) → List Req × Bool
  | [] => ([], true)
  | (path, r1, delOk, r2) :: rest =>
    let step := registerResourceSpec resourceUrl path r1 delOk r2
    if step.2 then
      let next := registerAllSpec resourceUrl rest
      (step.1 ++ next.1, next.2)
    else (step.1, false)

/-- `registry_path` for a Node (`model/src/resource/node.rs` line 138). -/
def NmosNode.registry_path (n : NmosNode) : String :=
  "/nodes/" ++ uuidStr n.core.id

/-- `registry_path` for a Device (`model/src/resource/device.rs` line 98). -/
def Device.registry_path (d : Device) : String :=
  "devices/" ++ uuidStr d.core.id

/-- `registry_path` for a Flow (`model/src/resource/flow.rs` line 145). -/
def Flow.registry_path (f : Flow) : String :=
  "flows/" ++ uuidStr f.core.id

/-- `registry_path` for a Receiver (`model/src/resource/receiver.rs` line
107). -/
def Receiver.registry_path (r : Receiver) : String :=
  "receivers/" ++ uuidStr r.core.id

/-! ### Map lemmas -/

theorem containsKey_insertKV_self (k : Uuid) (v : α) (m : List (Uuid × α)) :
    containsKey k (insertKV k v m) = true := by
  simp [containsKey, insertKV]

theorem containsKey_insertKV_of {k : Uuid} {m : List (Uuid × α)} (k' : Uuid) (v : α)
    (h : containsKey k m = true) : containsKey k (insertKV k' v m) = true := by
  simp only [containsKey, insertKV, List.any_cons, List.any_eq_true, Bool.or_eq_true,
    decide_eq_true_eq] at h ⊢
  by_cases hk : k' = k
  · exact Or.inl hk
  · obtain ⟨p, hp, hpk⟩ := h
    refine Or.inr ⟨p, List.mem_filter.mpr ⟨hp, ?_⟩, hpk⟩
    simp only [hpk, decide_eq_true_eq, Bool.not_eq_true', decide_eq_false_iff_not]
    exact fun hkk => hk hkk.symm

theorem all_insertKV {p : Uuid × α → Bool} {k : Uuid} {v : α} {m : List (Uuid × α)}
    (hv : p (k, v) = true) (h : m.all p = true) : (insertKV k v m).all p = true := by
  simp only [List.all_eq_true] at h ⊢
  intro x hx
  rcases List.mem_cons.mp hx with hx | hx
  · exact hx ▸ hv
  · exact h x (List.mem_filter.mp hx).1

theorem containsKey_foldToMap {key : α → Uuid} {l : List α} {k : Uuid}
    {init : List (Uuid × α)}
    (h : containsKey k init = true ∨ ∃ x ∈ l, key x = k) :
    containsKey k (l.foldl (fun map x => insertKV (key x) x map) init) = true := by
  induction l generalizing init with
  | nil =>
    rcases h with h | ⟨x, hx, _⟩
    · exact h
    · exact absurd hx (List.not_mem_nil x)
  | cons y ys ih =>
    rcases h with h | ⟨x, hx, hxk⟩
    · exact ih (Or.inl (containsKey_insertKV_of _ _ h))
    · rcases List.mem_cons.mp hx with rfl | hx
      · exact ih (Or.inl (hxk ▸ containsKey_insertKV_self _ _ _))
      · exact ih (Or.inr ⟨x, hx, hxk⟩)

/-! ### Preservation of referential integrity by single inserts -/

theorem refOk_applyInsert {m : Model} (op : InsertOp) (h : m.refOk = true) :
    (applyInsert m op).refOk = true := by
  have h' := h
  simp only [Model.refOk, Bool.and_eq_true] at h'
  obtain ⟨⟨⟨hdev, hrec⟩, hsen⟩, hflo⟩ := h'
  cases op with
  | node n =>
    simp only [applyInsert, Model.insert_node, Option.getD_some]
    simp only [Model.refOk, Bool.and_eq_true]
    refine ⟨⟨⟨?_, hrec⟩, hsen⟩, hflo⟩
    simp only [List.all_eq_true] at hdev ⊢
    exact fun p hp => containsKey_insertKV_of _ _ (hdev p hp)
  | device d =>
    simp only [applyInsert, Model.insert_device]
    cases hc : containsKey d.node_id m.nodes with
    | false =>
      simp only [hc, Bool.not_false, if_true, Option.getD_none]
      exact h
    | true =>
      simp only [hc, Bool.not_true, Bool.false_eq_true, if_false, Option.getD_some]
      simp only [Model.refOk, Bool.and_eq_true]
      refine ⟨⟨⟨all_insertKV hc hdev, ?_⟩, ?_⟩, ?_⟩
      · simp only [List.all_eq_true] at hrec ⊢
        exact fun p hp => containsKey_insertKV_of _ _ (hrec p hp)
      · simp only [List.all_eq_true, Bool.and_eq_true] at hsen ⊢
        exact fun p hp => ⟨containsKey_insertKV_of _ _ (hsen p hp).1, (hsen p hp).2⟩
      · simp only [List.all_eq_true, Bool.and_eq_true] at hflo ⊢
        exact fun p hp => ⟨containsKey_insertKV_of _ _ (hflo p hp).1, (hflo p hp).2⟩
  | receiver r =>
    simp only [applyInsert, Model.insert_receiver]
    cases hc : containsKey r.device_id m.devices with
    | false =>
      simp only [hc, Bool.not_false, if_true, Option.getD_none]
      exact h
    | true =>
      simp only [hc, Bool.not_true, Bool.false_eq_true, if_false, Option.getD_some]
      simp only [Model.refOk, Bool.and_eq_true]
      exact ⟨⟨⟨hdev, all_insertKV hc hrec⟩, hsen⟩, hflo⟩
  | sender s =>
    simp only [applyInsert, Model.insert_sender]
    cases hc : !containsKey s.device_id m.devices || !containsKey s.flow_id m.flows with
    | true =>
      simp only [hc, if_true, Option.getD_none]
      exact h
    | false =>
      simp only [hc, Bool.false_eq_true, if_false, Option.getD_some]
      have hc' : containsKey s.device_id m.devices = true ∧
          containsKey s.flow_id m.flows = true := by
        constructor <;> revert hc <;>
          cases containsKey s.device_id m.devices <;>
          cases containsKey s.flow_id m.flows <;> simp
      simp only [Model.refOk, Bool.and_eq_true]
      exact ⟨⟨⟨hdev, hrec⟩, all_insertKV (by simp [hc'.1, hc'.2]) hsen⟩, hflo⟩
  | flow f =>
    simp only [applyInsert, Model.insert_flow]
    cases hc : !containsKey f.device_id m.devices || !containsKey f.source_id m.sources with
    | true =>
      simp only [hc, if_true, Option.getD_none]
      exact h
    | false =>
      simp only [hc, Bool.false_eq_true, if_false, Option.getD_some]
      have hc' : containsKey f.device_id m.devices = true ∧
          containsKey f.source_id m.sources = true := by
        constructor <;> revert hc <;>
          cases containsKey f.device_id m.devices <;>
          cases containsKey f.source_id m.sources <;> simp
      simp only [Model.refOk, Bool.and_eq_true]
      refine ⟨⟨⟨hdev, hrec⟩, ?_⟩, all_insertKV (by simp [hc'.1, hc'.2]) hflo⟩
      simp only [List.all_eq_true, Bool.and_eq_true] at hsen ⊢
      exact fun p hp => ⟨(hsen p hp).1, containsKey_insertKV_of _ _ (hsen p hp).2⟩

theorem refOk_runInserts {m : Model} (ops : List InsertOp) (h : m.refOk = true) :
    (runInserts m ops).refOk = true := by
  induction ops generalizing m with
  | nil => exact h
  | cons op rest ih => exact ih (refOk_applyInsert op h)

/-! ### Sample resources for concrete instantiations -/

def sampleCore (i : Uuid) : ResourceCore :=
  { id := i, label := "res", description := "", version := (0, 0), tags := [] }

def sampleNode (i : Uuid) : NmosNode :=
  { core := sampleCore i, href := "http://127.0.0.1:3000/", hostname := none, services := [] }

def sampleDevice (i nid : Uuid) : Device :=
  { core := sampleCore i, type_ := DeviceType.generic, node_id := nid,
    senders := [], receivers := [] }

def sampleSource (i did : Uuid) : Source :=
  { core := sampleCore i, format := Format.video, device_id := did, parents := [] }

def sampleFlow (i did sid : Uuid) : Flow :=
  { core := sampleCore i, format := Format.video, source_id := sid, device_id := did,
    parents := [], frame_height := 1080, frame_width := 1920, media_type := "video/raw",
    colorspace := "BT709", grain_rate := none, sample_rate := none }

def sampleSender (i did fid : Uuid) : Sender :=
  { core := sampleCore i, flow_id := fid, transport := Transport.rtp, device_id := did,
    manifest_href := "http://127.0.0.1:3000/x.sdp" }

def sampleReceiver (i did : Uuid) : Receiver :=
  { core := sampleCore i, format := Format.video, device_id := did,
    transport := Transport.rtp, subscription := none }

/-- A resource bundle whose device references a node id that is in no
collection, and whose source references an equally absent device. -/
def danglingBundle : ResourceBundle :=
  { nodes := [], devices := [sampleDevice 1 99], sources := [sampleSource 2 98],
    flows := [], senders := [], receivers := [] }

/-- Claim C1: inserting a Device with an absent `node_id`, a Receiver with
an absent `device_id`, a Sender with an absent `device_id` or `flow_id`,
or a Flow with an absent `device_id` or `source_id` is rejected and the
model is exactly unchanged; when the references are present the insert
succeeds and touches only that kind's collection, adding the entity under
its id. Consequently every model reachable from the empty model by insert
operations satisfies the referential-integrity invariant (references are
present at insertion time, and inserts never remove anything, so they are
still present). -/
theorem c1_insert_referential_integrity :
    (∀ (m : Model) (d : Device),
      m.insert_device d =
        if containsKey d.node_id m.nodes then
          some { m with devices := insertKV d.core.id d m.devices } else none)
  ∧ (∀ (m : Model) (r : Receiver),
      m.insert_receiver r =
        if containsKey r.device_id m.devices then
          some { m with receivers := insertKV r.core.id r m.receivers } else none)
  ∧ (∀ (m : Model) (s : Sender),
      m.insert_sender s =
        if containsKey s.device_id m.devices && containsKey s.flow_id m.flows then
          some { m with senders := insertKV s.core.id s m.senders } else none)
  ∧ (∀ (m : Model) (f : Flow),
      m.insert_flow f =
        if containsKey f.device_id m.devices && containsKey f.source_id m.sources then
          some { m with flows := insertKV f.core.id f m.flows } else none)
  ∧ (∀ (m : Model) (d : Device), containsKey d.node_id m.nodes = false →
      applyInsert m (InsertOp.device d) = m)
  ∧ (∀ (m : Model) (r : Receiver), containsKey r.device_id m.devices = false →
      applyInsert m (InsertOp.receiver r) = m)
  ∧ (∀ (m : Model) (s : Sender),
      (containsKey s.device_id m.devices && containsKey s.flow_id m.flows) = false →
      applyInsert m (InsertOp.sender s) = m)
  ∧ (∀ (m : Model) (f : Flow),
      (containsKey f.device_id m.devices && containsKey f.source_id m.sources) = false →
      applyInsert m (InsertOp.flow f) = m)
  ∧ (∀ ops : List InsertOp, (runInserts Model.new ops).refOk = true) := by
  refine ⟨?_, ?_, ?_, ?_, ?_, ?_, ?_, ?_, ?_⟩
  · intro m d
    cases hc : containsKey d.node_id m.nodes <;> simp [Model.insert_device, hc]
  · intro m r
    cases hc : containsKey r.device_id m.devices <;> simp [Model.insert_receiver, hc]
  · intro m s
    cases h1 : containsKey s.device_id m.devices <;>
      cases h2 : containsKey s.flow_id m.flows <;>
      simp [Model.insert_sender, h1, h2]
  · intro m f
    cases h1 : containsKey f.device_id m.devices <;>
      cases h2 : containsKey f.source_id m.sources <;>
      simp [Model.insert_flow, h1, h2]
  · intro m d hc
    simp [applyInsert, Model.insert_device, hc]
  · intro m r hc
    simp [applyInsert, Model.insert_receiver, hc]
  · intro m s hc
    rcases Bool.and_eq_false_iff.mp hc with h1 | h2
    · simp [applyInsert, Model.insert_sender, h1]
    · simp [applyInsert, Model.insert_sender, h2]
  · intro m f hc
    rcases Bool.and_eq_false_iff.mp hc with h1 | h2
    · simp [applyInsert, Model.insert_flow, h1]
    · simp [applyInsert, Model.insert_flow, h2]
  · intro ops
    exact refOk_runInserts ops (by decide)

/-- Witness for C1 at concrete inputs: each rejecting insert on the empty
model leaves it exactly the empty model. -/
theorem c1_insert_referential_integrity_witness :
    applyInsert Model.new (InsertOp.device (sampleDevice 1 7)) = Model.new ∧
    applyInsert Model.new (InsertOp.receiver (sampleReceiver 2 7)) = Model.new ∧
    applyInsert Model.new (InsertOp.sender (sampleSender 3 7 8)) = Model.new ∧
    applyInsert Model.new (InsertOp.flow (sampleFlow 4 7 8)) = Model.new :=
  ⟨c1_insert_referential_integrity.2.2.2.2.1 Model.new (sampleDevice 1 7) (by decide),
   c1_insert_referential_integrity.2.2.2.2.2.1 Model.new (sampleReceiver 2 7) (by decide),
   c1_insert_referential_integrity.2.2.2.2.2.2.1 Model.new (sampleSender 3 7 8) (by decide),
   c1_insert_referential_integrity.2.2.2.2.2.2.2.1 Model.new (sampleFlow 4 7 8) (by decide)⟩

/-- Claim C9: `Model::from_resources` performs no referential validation —
every entity of the bundle lands in the resulting model keyed by its id,
whatever its references, so a model violating the referential-integrity
invariant is constructible this way (and Sources are never
reference-checked at all: they enter the graph only through this
constructor, the model having no `insert_source`). -/
theorem c9_from_resources_no_validation :
    (∀ (b : ResourceBundle) (n : NmosNode), n ∈ b.nodes →
        containsKey n.core.id (Model.from_resources b).nodes = true)
  ∧ (∀ (b : ResourceBundle) (d : Device), d ∈ b.devices →
        containsKey d.core.id (Model.from_resources b).devices = true)
  ∧ (∀ (b : ResourceBundle) (s : Source), s ∈ b.sources →
        containsKey s.core.id (Model.from_resources b).sources = true)
  ∧ (∀ (b : ResourceBundle) (f : Flow), f ∈ b.flows →
        containsKey f.core.id (Model.from_resources b).flows = true)
  ∧ (∀ (b : ResourceBundle) (s : Sender), s ∈ b.senders →
        containsKey s.core.id (Model.from_resources b).senders = true)
  ∧ (∀ (b : ResourceBundle) (r : Receiver), r ∈ b.receivers →
        containsKey r.core.id (Model.from_resources b).receivers = true)
  ∧ (Model.from_resources danglingBundle).refOk = false := by
  refine ⟨?_, ?_, ?_, ?_, ?_, ?_, by decide⟩ <;>
    · intro b x hx
      exact containsKey_foldToMap (Or.inr ⟨x, hx, rfl⟩)

/-- Witness for C9: the dangling bundle's device and source both appear in
the constructed model under their ids. -/
theorem c9_from_resources_no_validation_witness :
    containsKey 1 (Model.from_resources danglingBundle).devices = true ∧
    containsKey 2 (Model.from_resources danglingBundle).sources = true :=
  ⟨c9_from_resources_no_validation.2.1 danglingBundle (sampleDevice 1 99)
      (List.mem_singleton.mpr rfl),
   c9_from_resources_no_validation.2.2.1 danglingBundle (sampleSource 2 98)
      (List.mem_singleton.mpr rfl)⟩

/-! ### Priority-queue lemmas -/

theorem popBest_ne_none (r : NmosMdnsRegistry) (rs : List NmosMdnsRegistry) :
    popBest (r :: rs) ≠ none := by
  cases h : popBest rs with
  | none => simp [popBest, h]
  | some p =>
    obtain ⟨b, rest⟩ := p
    simp only [popBest, h]
    split <;> simp

theorem popBest_perm {l : List NmosMdnsRegistry} {c : NmosMdnsRegistry}
    {rest : List NmosMdnsRegistry} (h : popBest l = some (c, rest)) :
    l.Perm (c :: rest) := by
  induction l generalizing c rest with
  | nil => simp [popBest] at h
  | cons r rs ih =>
    cases hrs : popBest rs with
    | none =>
      have hnil : rs = [] := by
        cases rs with
        | nil => rfl
        | cons x xs => exact absurd hrs (popBest_ne_none x xs)
      subst hnil
      simp only [popBest] at h
      cases h
      exact List.Perm.refl _
    | some p =>
      obtain ⟨b, rest'⟩ := p
      simp only [popBest, hrs] at h
      by_cases hle : r.pri ≤ b.pri
      · rw [if_pos hle] at h
        cases h
        exact List.Perm.refl _
      · rw [if_neg hle] at h
        cases h
        exact ((ih hrs).cons r).trans (List.Perm.swap c r rest')

theorem popBest_min {l : List NmosMdnsRegistry} {c : NmosMdnsRegistry}
    {rest : List NmosMdnsRegistry} (h : popBest l = some (c, rest)) :
    ∀ d ∈ rest, c.pri ≤ d.pri := by
  induction l generalizing c rest with
  | nil => simp [popBest] at h
  | cons r rs ih =>
    cases hrs : popBest rs with
    | none =>
      have hnil : rs = [] := by
        cases rs with
        | nil => rfl
        | cons x xs => exact absurd hrs (popBest_ne_none x xs)
      subst hnil
      simp only [popBest] at h
      cases h
      intro d hd
      exact absurd hd (List.not_mem_nil d)
    | some p =>
      obtain ⟨b, rest'⟩ := p
      simp only [popBest, hrs] at h
      by_cases hle : r.pri ≤ b.pri
      · rw [if_pos hle] at h
        cases h
        intro d hd
        rcases List.mem_cons.mp ((popBest_perm hrs).mem_iff.mp hd) with rfl | hdr
        · exact hle
        · exact Nat.le_trans hle (ih hrs d hdr)
      · rw [if_neg hle] at h
        cases h
        intro d hd
        rcases List.mem_cons.mp hd with rfl | hd
        · exact Nat.le_of_lt (Nat.lt_of_not_le hle)
        · exact ih hrs d hd

/-- A registry candidate advertising both supported versions, with the
given priority. -/
def regOfPri (p : Nat) : NmosMdnsRegistry :=
  { api_proto := "http", api_ver := [V1_0, V1_3], api_auth := false, pri := p,
    url := "http://192.168.0.1:80/x-nmos/registration/" }

/-- Claim C5: `BinaryHeap::pop` under the reversed `Ord` of
`NmosMdnsRegistry` always yields a candidate whose `pri` is minimal among
what remains (so successive pops are non-decreasing in `pri`), removing
exactly that candidate; on priorities 5, 1, 3 the pops yield 1, then 3,
then 5. -/
theorem c5_priority_pop_order :
    (∀ (l : List NmosMdnsRegistry) (c : NmosMdnsRegistry) (rest : List NmosMdnsRegistry),
      popBest l = some (c, rest) →
        (∀ d ∈ rest, c.pri ≤ d.pri) ∧ l.Perm (c :: rest))
  ∧ (∀ (l : List NmosMdnsRegistry) (c : NmosMdnsRegistry)
        (rest : List NmosMdnsRegistry) (c2 : NmosMdnsRegistry)
        (rest2 : List NmosMdnsRegistry),
      popBest l = some (c, rest) → popBest rest = some (c2, rest2) →
        c.pri ≤ c2.pri)
  ∧ popBest [regOfPri 5, regOfPri 1, regOfPri 3] = some (regOfPri 1, [regOfPri 5, regOfPri 3])
  ∧ popBest [regOfPri 5, regOfPri 3] = some (regOfPri 3, [regOfPri 5])
  ∧ popBest [regOfPri 5] = some (regOfPri 5, []) := by
  refine ⟨fun l c rest h => ⟨popBest_min h, popBest_perm h⟩, ?_, rfl, rfl, rfl⟩
  intro l c rest c2 rest2 h h2
  exact popBest_min h c2 ((popBest_perm h2).mem_iff.mpr (List.mem_cons_self c2 rest2))

/-- Witness for C5: the three-candidate example, pops instantiated. -/
theorem c5_priority_pop_order_witness :
    (regOfPri 1).pri ≤ (regOfPri 3).pri ∧
    List.Perm [regOfPri 5, regOfPri 1, regOfPri 3] [regOfPri 1, regOfPri 5, regOfPri 3] :=
  ⟨c5_priority_pop_order.2.1 [regOfPri 5, regOfPri 1, regOfPri 3] (regOfPri 1)
      [regOfPri 5, regOfPri 3] (regOfPri 3) [regOfPri 5] rfl rfl,
   (c5_priority_pop_order.1 [regOfPri 5, regOfPri 1, regOfPri 3] (regOfPri 1)
      [regOfPri 5, regOfPri 3] rfl).2⟩

/-- A best-priority candidate that does not support `V1_3`, the node's
default configured API version. -/
def v10OnlyReg : NmosMdnsRegistry :=
  { api_proto := "http", api_ver := [V1_0], api_auth := false, pri := 1,
    url := "http://192.168.0.2:80/x-nmos/registration/" }

/-- Counterexample to claim C7: the selection tick of `Node::start` pops
and installs the best candidate with no version-compatibility check — a
queue holding only a candidate that does not support the configured
`V1_3` has that candidate installed as the active registry (and the queue
is left empty, not holding the candidate for the next round). -/
theorem c7_counterexample :
    selectTick [v10OnlyReg] = (some v10OnlyReg, []) ∧ V1_3 ∉ v10OnlyReg.api_ver :=
  ⟨rfl, by decide⟩

/-- Claim C7 as amended: the tick installs exactly the candidate popped
best-first from the queue, leaving precisely the other candidates queued;
no compatibility check happens at selection, so an incompatible candidate
is never installed only under the upstream guarantee that every queued
candidate supports the configured version. -/
theorem c7_selection_no_version_check :
    ∀ (q : List NmosMdnsRegistry) (v : APIVersion) (c : NmosMdnsRegistry)
      (rest : List NmosMdnsRegistry),
      (∀ d ∈ q, v ∈ d.api_ver) → selectTick q = (some c, rest) →
        v ∈ c.api_ver ∧ q.Perm (c :: rest) := by
  intro q v c rest hall h
  have hpop : popBest q = some (c, rest) := by
    cases hq : popBest q with
    | none => simp [selectTick, hq] at h
    | some p =>
      obtain ⟨r, rest'⟩ := p
      simp only [selectTick, hq] at h
      cases h
      rfl
  have hmem : c ∈ q := (popBest_perm hpop).mem_iff.mpr (List.mem_cons_self c rest)
  exact ⟨hall c hmem, popBest_perm hpop⟩

/-- Witness for C7's amended theorem: a fully compatible singleton queue
installs its candidate, which indeed supports `V1_3`. -/
theorem c7_selection_no_version_check_witness :
    V1_3 ∈ (regOfPri 1).api_ver ∧ List.Perm [regOfPri 1] [regOfPri 1] :=
  c7_selection_no_version_check [regOfPri 1] V1_3 (regOfPri 1) []
    (by decide) rfl

/-! ### URL-join lemmas -/

theorem dropLastSeg_slash (s : String) : dropLastSeg (s ++ "/") = s ++ "/" := by
  apply String.ext
  show ((s ++ "/").data.reverse.dropWhile (fun c => !(decide (c = '/')))).reverse
      = (s ++ "/").data
  rw [String.data_append, List.reverse_append]
  show (List.dropWhile (fun c => !(decide (c = '/'))) ('/' :: s.data.reverse)).reverse
      = s.data ++ ['/']
  rw [List.dropWhile_cons]
  simp

theorem urlJoin_slash (s rel : String) : urlJoin (s ++ "/") rel = s ++ "/" ++ rel := by
  show dropLastSeg (s ++ "/") ++ rel = s ++ "/" ++ rel
  rw [dropLastSeg_slash]

/-- A map whose elements all carry the same value maps to a replicate. -/
theorem map_const_replicate (l : List α) (c : β) :
    l.map (fun _ => c) = List.replicate l.length c := by
  induction l with
  | nil => rfl
  | cons x xs ih => simp [ih, List.replicate_succ]

/-- Claim C4: a full registration pass over any model (whatever order its
collections hold their entities in) emits its POSTs grouped in the strict
kind order Node, Devices, Sources, Flows, Senders, Receivers. -/
theorem c4_bulk_post_order :
    ∀ (m : Model) (u : String), m.nodes ≠ [] →
      ∃ posts, register_resources m u = some posts ∧
        posts.map ResourcePost.kind =
          Kind.node :: (List.replicate m.devices.length Kind.device
            ++ List.replicate m.sources.length Kind.source
            ++ List.replicate m.flows.length Kind.flow
            ++ List.replicate m.senders.length Kind.sender
            ++ List.replicate m.receivers.length Kind.receiver) := by
  intro m u hm
  match hn : m.nodes with
  | [] => exact absurd hn hm
  | (i, node) :: rest =>
    refine ⟨_, by rw [register_resources, hn], ?_⟩
    simp only [List.map_append, List.map_map, List.singleton_append, List.map_cons,
      List.map_nil]
    simp [Function.comp_def, map_const_replicate, List.append_assoc]

/-- A small model holding one node, one device and one receiver, used to
instantiate the registration-pass theorems. -/
def mThree : Model :=
  { nodes := [(7, sampleNode 7)], devices := [(1, sampleDevice 1 7)],
    sources := [], flows := [], senders := [],
    receivers := [(2, sampleReceiver 2 1)] }

/-- Witness for C4: the pass over `mThree` posts node, then device, then
receiver. -/
theorem c4_bulk_post_order_witness :
    ∃ posts, register_resources mThree "http://192.168.0.1:80/x-nmos/registration/" = some posts ∧
      posts.map ResourcePost.kind =
        Kind.node :: (List.replicate 1 Kind.device ++ List.replicate 0 Kind.source
          ++ List.replicate 0 Kind.flow ++ List.replicate 0 Kind.sender
          ++ List.replicate 1 Kind.receiver) :=
  c4_bulk_post_order mThree "http://192.168.0.1:80/x-nmos/registration/" (by decide)

/-- Claim C10: both the bulk pass and the heartbeat-URL construction take
the first entry of the nodes map with an unchecked `unwrap` — on a model
with no node they hit the panic (embedded as `none`); with at least one
node present that branch is unreachable and both produce a value. -/
theorem c10_first_node_unwrap :
    (∀ (m : Model) (u : String), m.nodes = [] → register_resources m u = none)
  ∧ (∀ (m : Model) (u : String) (v : APIVersion), m.nodes = [] →
      heartbeatTarget m u v = none)
  ∧ (∀ (m : Model) (u : String), m.nodes ≠ [] →
      (register_resources m u).isSome = true)
  ∧ (∀ (m : Model) (u : String) (v : APIVersion), m.nodes ≠ [] →
      (heartbeatTarget m u v).isSome = true) := by
  refine ⟨?_, ?_, ?_, ?_⟩
  · intro m u h
    rw [register_resources, h]
  · intro m u v h
    rw [heartbeatTarget, h]
  · intro m u h
    match hn : m.nodes with
    | [] => exact absurd hn h
    | (i, node) :: rest => rw [register_resources, hn]; rfl
  · intro m u v h
    match hn : m.nodes with
    | [] => exact absurd hn h
    | (i, node) :: rest => rw [heartbeatTarget, hn]; rfl

/-- Witness for C10: the empty model makes both constructions hit the
panic branch; `mThree` avoids it. -/
theorem c10_first_node_unwrap_witness :
    register_resources Model.new "http://192.168.0.1:80/x-nmos/registration/" = none ∧
    heartbeatTarget Model.new "http://192.168.0.1:80/x-nmos/registration/" V1_3 = none ∧
    (register_resources mThree "http://192.168.0.1:80/x-nmos/registration/").isSome = true ∧
    (heartbeatTarget mThree "http://192.168.0.1:80/x-nmos/registration/" V1_3).isSome = true :=
  ⟨c10_first_node_unwrap.1 Model.new _ rfl,
   c10_first_node_unwrap.2.1 Model.new _ V1_3 rfl,
   c10_first_node_unwrap.2.2.1 mThree _ (by decide),
   c10_first_node_unwrap.2.2.2 mThree _ V1_3 (by decide)⟩

/-- Claim C6: for every configured API version and every registry URL
(which `NmosMdnsRegistry::parse` always produces with a trailing slash,
here written `u ++ "/"`), the heartbeat POST goes to
`<registry-url>/<api-version>/health/nodes/<node-id>` and — per the
spec-modelled current `register_resources` — the bulk resource POST goes
to `<registry-url>/<api-version>/resource`. -/
theorem c6_registry_urls :
    ∀ (u : String) (v : APIVersion) (nodeId : Uuid),
      heartbeatUrl (u ++ "/") v nodeId
          = u ++ "/" ++ v.toStr ++ "/" ++ "health/nodes/" ++ uuidStr nodeId
        ∧ resourceUrlSpec (u ++ "/") v = u ++ "/" ++ v.toStr ++ "/" ++ "resource" := by
  intro u v nodeId
  have hbase : urlJoin (u ++ "/") (v.toStr ++ "/") = u ++ "/" ++ v.toStr ++ "/" := by
    rw [urlJoin_slash, ← String.append_assoc]
  constructor
  · show urlJoin (urlJoin (u ++ "/") (v.toStr ++ "/")) ("health/nodes/" ++ uuidStr nodeId)
        = u ++ "/" ++ v.toStr ++ "/" ++ "health/nodes/" ++ uuidStr nodeId
    rw [hbase, urlJoin_slash, ← String.append_assoc]
  · show urlJoin (urlJoin (u ++ "/") (v.toStr ++ "/")) "resource"
        = u ++ "/" ++ v.toStr ++ "/" ++ "resource"
    rw [hbase, urlJoin_slash]

/-! ### Heartbeat-loop lemmas (claim C3) -/

/-- Once `first_attempt` is `false`, the loop never re-registers again. -/
theorem hbLoop_false_reregs (o : RegOutcome) (resp : List HbResp) :
    (hbLoop o false resp).1 = 0 := by
  induction resp with
  | nil => rfl
  | cons r rest ih => cases r <;> simp [hbLoop, ih]

/-- Counterexample to claim C3: a 404 on the second heartbeat attempt —
after one successful heartbeat, hence not the first attempt since
(re-)entering the heartbeating state — still triggers the automatic
re-registration and the loop resumes, because a successful heartbeat never
clears `first_attempt`; the claim instead predicts heartbeat loss with no
re-registration, i.e. `(0, HbEnd.lost)`. -/
theorem c3_counterexample :
    hbLoop RegOutcome.regOk true [HbResp.success, HbResp.notFound]
        = (1, HbEnd.heartbeating false)
      ∧ ((1, HbEnd.heartbeating false) : Nat × HbEnd) ≠ (0, HbEnd.lost) :=
  ⟨rfl, by decide⟩

/-- Claim C3 as amended: a 404 received at any attempt while the single
automatic re-registration has not yet happened (successful heartbeats do
not clear the trigger) causes exactly one full re-registration, after
which heartbeating resumes; once it has happened, any further 404 is
heartbeat loss; a heartbeating session re-registers at most once. -/
theorem c3_heartbeat_rereg_once :
    (∀ (o : RegOutcome) (resp : List HbResp), (hbLoop o false resp).1 = 0)
  ∧ (∀ resp : List HbResp,
      hbLoop RegOutcome.regOk true (HbResp.notFound :: resp)
        = ((hbLoop RegOutcome.regOk false resp).1 + 1,
           (hbLoop RegOutcome.regOk false resp).2))
  ∧ (∀ (o : RegOutcome) (pre resp : List HbResp), (∀ r ∈ pre, r = HbResp.success) →
      hbLoop o true (pre ++ resp) = hbLoop o true resp)
  ∧ (∀ (o : RegOutcome) (resp : List HbResp),
      hbLoop o false (HbResp.notFound :: resp) = (0, HbEnd.lost))
  ∧ (∀ (o : RegOutcome) (fa : Bool) (resp : List HbResp), (hbLoop o fa resp).1 ≤ 1) := by
  refine ⟨hbLoop_false_reregs, ?_, ?_, ?_, ?_⟩
  · intro resp
    simp [hbLoop]
  · intro o pre resp hall
    induction pre with
    | nil => rfl
    | cons r pre' ih =>
      have hr : r = HbResp.success := hall r (List.mem_cons_self r pre')
      subst hr
      show hbLoop o true (pre' ++ resp) = hbLoop o true resp
      exact ih (fun x hx => hall x (List.mem_cons_of_mem _ hx))
  · intro o resp
    simp [hbLoop]
  · intro o fa resp
    cases fa with
    | false => simp [hbLoop_false_reregs]
    | true =>
      induction resp with
      | nil => simp [hbLoop]
      | cons r rest ih =>
        cases r with
        | success => simpa [hbLoop] using ih
        | notFound =>
          cases o <;> simp [hbLoop, hbLoop_false_reregs]
        | otherError => simp [hbLoop]
        | sendFailed => simp [hbLoop]

/-- Witness for C3's amended theorem: two successful heartbeats do not
consume the re-registration trigger. -/
theorem c3_heartbeat_rereg_once_witness :
    hbLoop RegOutcome.regOk true
        ([HbResp.success, HbResp.success] ++ [HbResp.notFound])
      = hbLoop RegOutcome.regOk true [HbResp.notFound] :=
  c3_heartbeat_rereg_once.2.2.1 RegOutcome.regOk [HbResp.success, HbResp.success]
    [HbResp.notFound] (by decide)

/-! ### Spec-modelled registration protocol (claim C2) -/

/-- Claim C2: when the registry answers a resource POST with "already
exists", the driver issues exactly one DELETE at the entity's registry
path followed by exactly one retry POST — successful if the retry is
answered "created"; an "already exists" answer to the retry is terminal
for the entity, and any entity failure aborts the bulk pass with no
request issued for later entities (a succeeding entity lets the pass
continue). -/
theorem c2_already_exists_delete_retry :
    (∀ u p : String,
      registerResourceSpec u p RegResp.alreadyExists true RegResp.created
        = ([Req.post u, Req.delete (deleteUrlSpec u p), Req.post u], true))
  ∧ (∀ u p : String,
      registerResourceSpec u p RegResp.alreadyExists true RegResp.alreadyExists
        = ([Req.post u, Req.delete (deleteUrlSpec u p), Req.post u], false))
  ∧ (∀ (u p : String) (r1 : RegResp) (d : Bool) (r2 : RegResp)
        (rest : List (String × RegResp × Bool × RegResp)),
      (registerResourceSpec u p r1 d r2).2 = false →
        registerAllSpec u ((p, r1, d, r2) :: rest)
          = ((registerResourceSpec u p r1 d r2).1, false))
  ∧ (∀ (u p : String) (r1 : RegResp) (d : Bool) (r2 : RegResp)
        (rest : List (String × RegResp × Bool × RegResp)),
      (registerResourceSpec u p r1 d r2).2 = true →
        registerAllSpec u ((p, r1, d, r2) :: rest)
          = ((registerResourceSpec u p r1 d r2).1 ++ (registerAllSpec u rest).1,
             (registerAllSpec u rest).2)) := by
  refine ⟨fun u p => rfl, fun u p => rfl, ?_, ?_⟩
  · intro u p r1 d r2 rest h
    simp [registerAllSpec, h]
  · intro u p r1 d r2 rest h
    simp [registerAllSpec, h]

/-- Witness for C2: a device whose POST and retry both come back "already
exists" aborts the pass before the following flow is ever posted. -/
theorem c2_already_exists_delete_retry_witness :
    registerAllSpec "R"
        [("devices/1", RegResp.alreadyExists, true, RegResp.alreadyExists),
         ("flows/2", RegResp.created, true, RegResp.created)]
      = ([Req.post "R", Req.delete (deleteUrlSpec "R" "devices/1"), Req.post "R"], false) := by
  rw [c2_already_exists_delete_retry.2.2.1 "R" "devices/1" RegResp.alreadyExists true
    RegResp.alreadyExists [("flows/2", RegResp.created, true, RegResp.created)] (by decide)]
  rfl

/-! ### Malformed-advertisement handling (claim C8) -/

/-- A discovery record whose `api_ver` list contains one good and one
unparsable version string, everything else well-formed. -/
def badVerRecord : ServiceDiscovery :=
  { address := "192.168.1.10", port := 80,
    txt := some [("api_proto", "http"), ("api_ver", "v1.0,banana"),
                 ("api_auth", "true"), ("pri", "3")] }

/-- Counterexample to claim C8: an `api_ver` list containing an unparsable
version string does not discard the record — `flat_map` drops the bad
entry individually and the candidate survives with the parsable subset. -/
theorem c8_counterexample :
    NmosMdnsRegistry.parse badVerRecord ≠ none ∧
    (NmosMdnsRegistry.parse badVerRecord).map NmosMdnsRegistry.api_ver = some [V1_0] := by
  constructor <;> decide

/-- Claim C8 as amended: an unparsable host address, an unparsable boolean
`api_auth` or an unparsable integer `pri` each discard the whole record;
an unparsable entry in the `api_ver` list, however, is skipped
individually — any surviving candidate carries exactly the parsable
versions of the advertised list. -/
theorem c8_malformed_record_handling :
    (∀ d : ServiceDiscovery, IpAddr.fromStr d.address = none →
        NmosMdnsRegistry.parse d = none)
  ∧ (∀ (d : ServiceDiscovery) (t : List (String × String)) (a : String),
      d.txt = some t → txtGet t "api_auth" = some a → parseRustBool a = none →
        NmosMdnsRegistry.parse d = none)
  ∧ (∀ (d : ServiceDiscovery) (t : List (String × String)) (p : String),
      d.txt = some t → txtGet t "pri" = some p → parseRustU8 p = none →
        NmosMdnsRegistry.parse d = none)
  ∧ (∀ (d : ServiceDiscovery) (t : List (String × String)) (vs : String)
        (r : NmosMdnsRegistry),
      d.txt = some t → txtGet t "api_ver" = some vs →
      NmosMdnsRegistry.parse d = some r →
        r.api_ver = (splitChar ',' vs.data).filterMap (fun l => APIVersion.fromStr ⟨l⟩)) := by
  refine ⟨?_, ?_, ?_, ?_⟩
  · intro d h
    cases hd : d.txt with
    | none => simp [NmosMdnsRegistry.parse, hd]
    | some t =>
      cases t1 : txtGet t "api_proto" <;> cases t2 : txtGet t "api_ver" <;>
        cases t3 : txtGet t "api_auth" <;> cases t4 : txtGet t "pri" <;>
        simp [NmosMdnsRegistry.parse, hd, t1, t2, t3, t4, h]
  · intro d t a hd hga hpb
    cases t1 : txtGet t "api_proto" <;> cases t2 : txtGet t "api_ver" <;>
      cases t4 : txtGet t "pri" <;> cases hip : IpAddr.fromStr d.address <;>
      simp [NmosMdnsRegistry.parse, hd, t1, t2, hga, t4, hip, hpb]
  · intro d t p hd hgp hpu
    cases t1 : txtGet t "api_proto" with
    | none => simp [NmosMdnsRegistry.parse, hd, t1]
    | some proto =>
      cases t2 : txtGet t "api_ver" with
      | none => simp [NmosMdnsRegistry.parse, hd, t1, t2]
      | some vs =>
        cases t3 : txtGet t "api_auth" with
        | none => simp [NmosMdnsRegistry.parse, hd, t1, t2, t3]
        | some auth =>
          cases hip : IpAddr.fromStr d.address with
          | none => simp [NmosMdnsRegistry.parse, hd, t1, t2, t3, hgp, hip]
          | some addr =>
            cases hb : parseRustBool auth with
            | none => simp [NmosMdnsRegistry.parse, hd, t1, t2, t3, hgp, hip, hb]
            | some bb =>
              simp [NmosMdnsRegistry.parse, hd, t1, t2, t3, hgp, hip, hb, hpu]
  · intro d t vs r hd hgv hp
    simp only [NmosMdnsRegistry.parse, hd] at hp
    cases t1 : txtGet t "api_proto" with
    | none => rw [t1, hgv] at hp; exact absurd hp (by simp)
    | some proto =>
      rw [t1, hgv] at hp
      cases t3 : txtGet t "api_auth" with
      | none => rw [t3] at hp; exact absurd hp (by simp)
      | some auth =>
        rw [t3] at hp
        cases t4 : txtGet t "pri" with
        | none => rw [t4] at hp; exact absurd hp (by simp)
        | some pristr =>
          rw [t4] at hp
          simp only [] at hp
          cases hip : IpAddr.fromStr d.address with
          | none => rw [hip] at hp; exact absurd hp (by simp)
          | some addr =>
            rw [hip] at hp
            cases hb : parseRustBool auth with
            | none => rw [hb] at hp; exact absurd hp (by simp)
            | some bb =>
              rw [hb] at hp
              cases hu : parseRustU8 pristr with
              | none => rw [hu] at hp; exact absurd hp (by simp)
              | some pri =>
                rw [hu] at hp
                cases hp
                rfl

/-- A record whose host address is unparsable. -/
def badAddrRecord : ServiceDiscovery :=
  { address := "banana", port := 80,
    txt := some [("api_proto", "http"), ("api_ver", "v1.0"),
                 ("api_auth", "true"), ("pri", "1")] }

/-- A record whose `api_auth` is not a Rust boolean. -/
def badBoolRecord : ServiceDiscovery :=
  { address := "192.168.1.11", port := 80,
    txt := some [("api_proto", "http"), ("api_ver", "v1.0"),
                 ("api_auth", "TRUE"), ("pri", "1")] }

/-- A record whose `pri` does not fit in a `u8`. -/
def badPriRecord : ServiceDiscovery :=
  { address := "192.168.1.12", port := 80,
    txt := some [("api_proto", "http"), ("api_ver", "v1.0"),
                 ("api_auth", "true"), ("pri", "999")] }

/-- Witness for C8's amended theorem: a bad address, a bad boolean and a
bad priority each drop their record. -/
theorem c8_malformed_record_handling_witness :
    NmosMdnsRegistry.parse badAddrRecord = none ∧
    NmosMdnsRegistry.parse badBoolRecord = none ∧
    NmosMdnsRegistry.parse badPriRecord = none :=
  ⟨c8_malformed_record_handling.1 badAddrRecord (by decide),
   c8_malformed_record_handling.2.1 badBoolRecord
     [("api_proto", "http"), ("api_ver", "v1.0"), ("api_auth", "TRUE"), ("pri", "1")]
     "TRUE" rfl (by decide) (by decide),
   c8_malformed_record_handling.2.2.1 badPriRecord
     [("api_proto", "http"), ("api_ver", "v1.0"), ("api_auth", "true"), ("pri", "999")]
     "999" rfl (by decide) (by decide)⟩

end Nmos
